import Mathlib

/-!
Verification of the mk-tools model-building and build-script-generation core
(lexer-level section parsers, modeller helpers and the application build-script
generator) against its natural-language specification.  The C++ sources are
shallowly embedded: exception-throwing functions become Except-valued
functions, C machine integers become Nat/Int with explicit reduction
modulo 2 ^ 64 where the machine arithmetic wraps, and the generator state
(the set of already-bundled files plus the emitted script) is passed
explicitly.
-/

namespace MkTools

/-- Whether a computation finished without throwing (the C++ code throws
exceptions; the embedding returns Except, with error carrying the message). -/
def exceptIsOk {ε α : Type} : Except ε α → Bool
  | Except.ok _ => true
  | Except.error _ => false

/-! ## C standard library model: strtoul / strtol with base 0

GetNonNegativeInt and GetInt call strtoul/strtol with base 0: optional
leading whitespace and sign, then a 0x/0X prefix selects base 16, a
leading 0 selects base 8, anything else base 10.  On overflow the
functions return ULONG_MAX (resp. LONG_MAX / LONG_MIN) and set errno to
ERANGE; if no digits are converted they return 0 with the end pointer at
the start of the input.  The embedding works on List Char and returns the
remaining characters in place of the end pointer. -/

def ULONG_MAX : Nat := 2 ^ 64 - 1

def LONG_MAX : Nat := 2 ^ 63 - 1

/-- isspace in the C locale. -/
def isSpaceC (c : Char) : Bool :=
  c == ' ' || c == '\t' || c == '\n' || c == '\x0b' || c == '\x0c' || c == '\r'

/-- Value of a digit character in the given base, none if it is not a digit
of that base. -/
def digitVal (base : Nat) (c : Char) : Option Nat :=
  let v : Option Nat :=
    if '0' ≤ c ∧ c ≤ '9' then some (c.toNat - 48)
    else if 'a' ≤ c ∧ c ≤ 'z' then some (c.toNat - 87)
    else if 'A' ≤ c ∧ c ≤ 'Z' then some (c.toNat - 55)
    else none
  match v with
  | some d => if d < base then some d else none
  | none => none

/-- Accumulate digits of the given base; returns the (unbounded) value, the
unconsumed rest, and whether at least one digit was consumed. -/
def parseDigits (base : Nat) : List Char → Nat → Bool → Nat × List Char × Bool
  | [], acc, seen => (acc, [], seen)
  | c :: rest, acc, seen =>
    match digitVal base c with
    | some d => parseDigits base rest (acc * base + d) true
    | none => (acc, c :: rest, seen)

/-- Common front end of strtoul/strtol with base 0: whitespace, sign, base
prefix, digit accumulation (value kept unbounded; the callers clamp). -/
structure CParse where
  magnitude : Nat
  neg : Bool
  rest : List Char
  converted : Bool
deriving DecidableEq, Repr

def strtolCore (cs : List Char) : CParse :=
  let cs1 := cs.dropWhile isSpaceC
  let signed : Bool × List Char :=
    match cs1 with
    | [] => (false, [])
    | c :: t => if c = '-' then (true, t) else if c = '+' then (false, t) else (false, c :: t)
  let neg := signed.1
  let cs2 := signed.2
  let based : Nat × List Char :=
    match cs2 with
    | [] => (10, [])
    | c0 :: rest0 =>
      if c0 = '0' then
        match rest0 with
        | [] => (8, c0 :: rest0)
        | c1 :: rest1 =>
          if (c1 == 'x' || c1 == 'X') && (match rest1 with
                                          | c2 :: _ => (digitVal 16 c2).isSome
                                          | [] => false) then
            (16, rest1)
          else (8, c0 :: rest0)
      else (10, c0 :: rest0)
  let p := parseDigits based.1 based.2 0 false
  if p.2.2 then ⟨p.1, neg, p.2.1, true⟩ else ⟨0, false, cs, false⟩

structure UlongResult where
  value : Nat
  erange : Bool
  rest : List Char
deriving DecidableEq, Repr

/-- strtoul(text, endPtr, 0): overflow yields ULONG_MAX with ERANGE; a
negative subject is negated modulo 2 ^ 64 (no error). -/
def strtoul0 (cs : List Char) : UlongResult :=
  let p := strtolCore cs
  if p.converted = false then ⟨0, false, cs⟩
  else if ULONG_MAX < p.magnitude then ⟨ULONG_MAX, true, p.rest⟩
  else if p.neg then ⟨(2 ^ 64 - p.magnitude) % 2 ^ 64, false, p.rest⟩
  else ⟨p.magnitude, false, p.rest⟩

structure LongResult where
  value : Int
  erange : Bool
  rest : List Char
deriving DecidableEq, Repr

/-- strtol(text, endPtr, 0): clamps to LONG_MIN / LONG_MAX with ERANGE. -/
def strtol0 (cs : List Char) : LongResult :=
  let p := strtolCore cs
  if p.converted = false then ⟨0, false, cs⟩
  else if p.neg then
    if 2 ^ 63 < p.magnitude then ⟨-(2 ^ 63 : Int), true, p.rest⟩
    else ⟨-(p.magnitude : Int), false, p.rest⟩
  else
    if LONG_MAX < p.magnitude then ⟨(LONG_MAX : Int), true, p.rest⟩
    else ⟨(p.magnitude : Int), false, p.rest⟩

/-- Conversion of a signed long value to size_t (reduction modulo 2 ^ 64). -/
def toUnsigned64 (i : Int) : Nat := (i % (18446744073709551616 : Int)).toNat

/-- Reinterpretation of a size_t bit pattern as ssize_t. -/
def toSigned64 (n : Nat) : Int :=
  if n < 2 ^ 63 then (n : Int) else (n : Int) - 2 ^ 64

/-! ## Parser-level section parsers (parser.cpp)

ParsePriority and ParseWatchdogTimeout validate the content token of a
simple section immediately at parse time.  The embedding takes the content
token (its type and text) directly; pulling delimiters and skipping
whitespace are not observable in the validated value. -/

/-- Token types relevant to the embedded parsers (parseTree::Token_t::Type_t). -/
inductive TokenKind where
  | filePermissions
  | filePath
  | name
  | integer
  | other
deriving DecidableEq, Repr

/-- A lexical token: type and text (line/column omitted; they only feed
error-message positions). -/
structure Token where
  kind : TokenKind
  text : String
deriving DecidableEq, Repr

/-- C++ std::string indexing as used by ParsePriority: reading one past the
last character of a std::string yields the null character. -/
def cAt (cs : List Char) (i : Nat) : Char := cs.getD i '\x00'

/-- Digits extracted by the istream of ParsePriority (operator>> on an
unsigned int consumes the leading decimal digits). -/
def streamDigits (cs : List Char) : List Char := cs.takeWhile Char.isDigit

/-- Decimal value of a digit string. -/
def digitsToNat (ds : List Char) : Nat := ds.foldl (fun a c => a * 10 + (c.toNat - 48)) 0

/-- The character tests ParsePriority performs on the section content before
accepting it as an rtN real-time priority: content[0] is r, content[1] is t,
content[2] is a digit, and either content[3] terminates the string or it is
a digit and content[4] terminates the string. -/
def prioGuard (cs : List Char) : Bool :=
  (cAt cs 0 == 'r') && (cAt cs 1 == 't') && (cAt cs 2).isDigit &&
    ((cAt cs 3 == '\x00') || ((cAt cs 3).isDigit && (cAt cs 4 == '\x00')))

/-- parser::ParsePriority, validation of the content token text. -/
def parsePriority (content : String) : Except String Unit :=
  if content = "idle" ∨ content = "low" ∨ content = "medium" ∨ content = "high" then
    Except.ok ()
  else if prioGuard content.toList then
    let number := digitsToNat (streamDigits (content.toList.drop 2))
    if number < 1 ∨ 32 < number then
      Except.error ("Real-time priority level " ++ content ++ " out of range."
        ++ "  Must be in the range \x27rt1\x27 through \x27rt32\x27.")
    else Except.ok ()
  else Except.error ("Invalid priority \x27" ++ content ++ "\x27.")

/-- Acceptance condition written from the claim text: the token is one of
the four named priorities, or the letters rt followed by one or two decimal
digits (and nothing else) denoting a number between 1 and 32. -/
def specRt : List Char → Bool
  | [a, b, c] => (a == 'r') && (b == 't') && c.isDigit
  | [a, b, c, d] => (a == 'r') && (b == 't') && c.isDigit && d.isDigit
  | _ => false

def specAcceptPriority (content : String) : Bool :=
  (content == "idle") || (content == "low") || (content == "medium") || (content == "high") ||
    (specRt content.toList &&
      decide (1 ≤ digitsToNat (content.toList.drop 2)) &&
      decide (digitsToNat (content.toList.drop 2) ≤ 32))

/-- parser::ParseWatchdogTimeout, on the upcoming content token: a NAME
token must read never; otherwise an INTEGER token is required. -/
def parseWatchdogTimeout (tk : TokenKind) (text : String) : Except String String :=
  match tk with
  | TokenKind.name =>
    if text ≠ "never" then
      Except.error ("Invalid watchdog timeout value \x27" ++ text
        ++ "\x27. Must be an integer or the word \x27never\x27.")
    else Except.ok text
  | TokenKind.integer => Except.ok text
  | _ => Except.error "Invalid watchdog timeout. Must be an integer or the word \x27never\x27."

/-! ## Modeller helpers (modellerCommon.cpp) -/

/-- model::Permissions_t: three flags, all false on default construction. -/
structure Permissions where
  readable : Bool := false
  writeable : Bool := false
  executable : Bool := false
deriving DecidableEq, Repr

/-- model::FileSystemObject_t (the parse-tree back pointer used only for
error positions is omitted). -/
structure FileSystemObject where
  srcPath : String
  destPath : String
  permissions : Permissions
deriving DecidableEq, Repr

/-- Modelled from the spec: path::GetLastNode is not among the given
sources; per the spec the modeller appends the final path component of the
source, i.e. the text after the last separator. -/
def getLastNode (p : String) : String :=
  String.mk ((p.toList.reverse.takeWhile (fun c => c != '/')).reverse)

/-- Last character of a std::string (std::string::back). -/
def strBack (s : String) : Option Char := s.toList.getLast?

/-- One character of a FILE_PERMISSIONS token body applied to a
Permissions_t (the switch in modeller::GetPermissions). -/
def applyPermChar (p : Permissions) (c : Char) : Permissions :=
  if c = 'r' then { p with readable := true }
  else if c = 'w' then { p with writeable := true }
  else if c = 'x' then { p with executable := true }
  else p

/-- The loop of modeller::GetPermissions: scan from index 1 until the
closing bracket. -/
def getPermissionsLoop : Permissions → List Char → Permissions
  | p, [] => p
  | p, c :: rest => if c = ']' then p else getPermissionsLoop (applyPermChar p c) rest

/-- modeller::GetPermissions on a FILE_PERMISSIONS token text. -/
def getPermissions (p : Permissions) (text : String) : Permissions :=
  getPermissionsLoop p (text.toList.drop 1)

/-- Source/destination path preparation shared by the permission-item
constructors: environment-variable substitution then unquoting (both
supplied as functions: envVars::DoSubstitution and path::Unquote are
outside the given sources), then completion of a destination ending in a
separator with the last node of the source. -/
def mkFso (subst unquote : String → String) (srcText destText : String)
    (perms : Permissions) : FileSystemObject :=
  let srcPath := unquote (subst srcText)
  let destPath := unquote (subst destText)
  let destPath := if strBack destPath = some '/' then destPath ++ getLastNode srcPath
                  else destPath
  { srcPath := srcPath, destPath := destPath, permissions := perms }

/-- modeller::GetPermissionItem: an optional leading FILE_PERMISSIONS token
followed by source and destination path tokens; without a permissions token
the object defaults to read-only.  Returns none only on a token list too
short to index (the parser never produces one). -/
def getPermissionItem (subst unquote : String → String) (contents : List Token) :
    Option FileSystemObject :=
  match contents with
  | [] => none
  | firstToken :: rest =>
    if firstToken.kind = TokenKind.filePermissions then
      match rest with
      | srcTok :: destTok :: _ =>
        some (mkFso subst unquote srcTok.text destTok.text (getPermissions {} firstToken.text))
      | _ => none
    else
      match rest with
      | destTok :: _ =>
        some (mkFso subst unquote firstToken.text destTok.text { readable := true })
      | _ => none

/-- modeller::GetBundledItem. -/
def getBundledItem (subst unquote : String → String) (contents : List Token) :
    Option FileSystemObject :=
  getPermissionItem subst unquote contents

/-- modeller::GetRequiredDevice: a permission item whose permissions must
not include execute. -/
def getRequiredDevice (subst unquote : String → String) (contents : List Token) :
    Except String (Option FileSystemObject) :=
  match getPermissionItem subst unquote contents with
  | none => Except.ok none
  | some fso =>
    if fso.permissions.executable then
      Except.error ("Execute permission is not allowed on devices: \x27" ++ fso.srcPath ++ "\x27")
    else Except.ok (some fso)

/-- modeller::GetRequiredFileOrDir: substitution and unquoting applied to
both paths, then the source must not end in a separator, and a destination
ending in a separator is completed with the last node of the source. -/
def getRequiredFileOrDir (subst unquote : String → String) (srcText destText : String) :
    Except String FileSystemObject :=
  let srcPath := unquote (subst srcText)
  let destPath := unquote (subst destText)
  if strBack srcPath = some '/' then
    Except.error "Required item\x27s path must not end in a \x27/\x27."
  else
    let destPath := if strBack destPath = some '/' then destPath ++ getLastNode srcPath
                    else destPath
    Except.ok { srcPath := srcPath, destPath := destPath, permissions := {} }

/-- modeller::GetNonNegativeInt: strtoul with base 0; errno is checked
before the optional K suffix multiplies the size_t result by 1024 with the
unsigned wraparound of the machine multiplication. -/
def getNonNegativeInt (text : String) : Except String Nat :=
  let r := strtoul0 text.toList
  if r.erange then
    Except.error ("Value must be an integer between 0 and 18446744073709551615,"
      ++ " with an optional \x27K\x27 suffix.")
  else
    let result := if r.rest.head? = some 'K' then r.value * 1024 % 2 ^ 64 else r.value
    Except.ok result

/-- modeller::GetInt: strtol stored into a size_t local (conversion modulo
2 ^ 64), errno check, optional K multiply with unsigned wraparound, result
returned as ssize_t. -/
def getInt (text : String) : Except String Int :=
  let r := strtol0 text.toList
  if r.erange then
    Except.error ("Value must be an integer between -9223372036854775808 and"
      ++ " 9223372036854775807, with an optional \x27K\x27 suffix.")
  else
    let result := toUnsigned64 r.value
    let result := if r.rest.head? = some 'K' then result * 1024 % 2 ^ 64 else result
    Except.ok (toSigned64 result)

/-- modeller::GetPositiveInt: GetNonNegativeInt plus a rejection of zero. -/
def getPositiveInt (text : String) : Except String Nat :=
  match getNonNegativeInt text with
  | Except.error e => Except.error e
  | Except.ok r =>
    if r = 0 then
      Except.error ("Value must be an integer between 1 and 18446744073709551615,"
        ++ " with an optional \x27K\x27 suffix.")
    else Except.ok r

/-- modeller::SetWatchdogAction: the app-level setting may be set once. -/
def setWatchdogAction (current : Option String) (text : String) :
    Except String (Option String) :=
  if current.isSome then Except.error "Only one watchdogAction section allowed."
  else Except.ok (some text)

/-- modeller::SetWatchdogTimeout: the app-level setting may be set once; a
NAME content token (the parser only lets never through) stores -1, any
other token is extracted with GetInt. -/
def setWatchdogTimeout (current : Option Int) (tk : TokenKind) (text : String) :
    Except String (Option Int) :=
  if current.isSome then Except.error "Only one watchdogTimeout section allowed."
  else
    match tk with
    | TokenKind.name => Except.ok (some (-1))
    | _ =>
      match getInt text with
      | Except.error e => Except.error e
      | Except.ok v => Except.ok (some v)

/-! ## Binding resolver (modellerCommon.cpp) -/

/-- model::Binding_t endpoint tags. -/
inductive BindingEndType where
  | internal
  | externalUser
  | externalApp
deriving DecidableEq, Repr

/-- model::Binding_t (the parse-tree back pointer is omitted). -/
structure Binding where
  clientType : BindingEndType
  clientAgentName : String
  clientIfName : String
  serverType : BindingEndType
  serverAgentName : String
  serverIfName : String
deriving DecidableEq, Repr

/-- One client-side API interface instance of a component instance:
instance name, the internal name and optional flag of the referenced
interface declaration, the binding if any, and whether an extern mark is
attached. -/
structure ClientIfInstance where
  name : String
  internalName : String
  optional : Bool
  binding : Option Binding
  externMark : Bool
deriving DecidableEq, Repr

/-- modeller::BindToRootService: an internal client end bound to the
EXTERNAL_USER server root offering the named service. -/
def bindToRootService (appName : String) (inst : ClientIfInstance) (serviceName : String) :
    Binding :=
  { clientType := BindingEndType.internal
    clientAgentName := appName
    clientIfName := inst.name
    serverType := BindingEndType.externalUser
    serverAgentName := "root"
    serverIfName := serviceName }

/-- modeller::CheckBindingTarget: only EXTERNAL_APP targets are checked;
the system is the map from app name to the list of extern server interface
names the app exposes. -/
def checkBindingTarget (apps : List (String × List String)) (b : Binding) :
    Except String Unit :=
  if b.serverType = BindingEndType.externalApp then
    match apps.find? (fun entry => entry.1 == b.serverAgentName) with
    | none =>
      Except.error ("Binding to non-existent server app \x27" ++ b.serverAgentName ++ "\x27.")
    | some entry =>
      if entry.2.contains b.serverIfName then Except.ok ()
      else
        Except.error ("Binding to non-existent server interface \x27" ++ b.serverIfName
          ++ "\x27 on app \x27" ++ b.serverAgentName ++ "\x27.")
  else Except.ok ()

/-- The body of the innermost loop of modeller::EnsureClientInterfacesBound
for one client interface instance: returns the binding the interface holds
afterwards, or the error raised.  An unbound non-optional le_cfg or le_wdog
interface is auto-bound to the root service; any other unbound non-optional
interface is an error whose message depends on the extern mark; a held
binding is checked against the system. -/
def ensureClientIfBound (apps : List (String × List String))
    (appName exeName compName : String) (inst : ClientIfInstance) :
    Except String (Option Binding) :=
  match inst.binding with
  | none =>
    if inst.optional = false then
      if inst.internalName = "le_cfg" then
        Except.ok (some (bindToRootService appName inst "le_cfg"))
      else if inst.internalName = "le_wdog" then
        Except.ok (some (bindToRootService appName inst "le_wdog"))
      else if inst.externMark then
        Except.error ("Client interface \x27" ++ appName ++ "." ++ inst.name ++ "\x27 (aka \x27"
          ++ appName ++ "." ++ exeName ++ "." ++ compName ++ "." ++ inst.internalName
          ++ "\x27) is not bound to anything.")
      else
        Except.error ("Client interface \x27" ++ appName ++ "." ++ inst.name
          ++ "\x27 is not bound to anything.")
    else Except.ok none
  | some b =>
    match checkBindingTarget apps b with
    | Except.error e => Except.error e
    | Except.ok _ => Except.ok (some b)

/-- The body of the innermost loop of
modeller::EnsureClientInterfacesSatisfied for one client interface
instance: only an instance that is unbound and carries no extern mark is
examined; non-optional le_cfg and le_wdog are auto-bound to the root
service and anything else non-optional is an error. -/
def ensureClientIfSatisfied (appName exeName compName : String) (inst : ClientIfInstance) :
    Except String (Option Binding) :=
  if inst.binding = none ∧ inst.externMark = false then
    if inst.optional = false then
      if inst.internalName = "le_cfg" then
        Except.ok (some (bindToRootService appName inst "le_cfg"))
      else if inst.internalName = "le_wdog" then
        Except.ok (some (bindToRootService appName inst "le_wdog"))
      else
        Except.error ("Client interface \x27" ++ inst.internalName ++ "\x27 of component \x27"
          ++ compName ++ "\x27 in executable \x27" ++ exeName
          ++ "\x27 is unsatisfied. It must either be declared"
          ++ " an external (inter-app) required interface"
          ++ " (in a \"requires: api:\" section in the .adef)"
          ++ " or be bound to a server side interface"
          ++ " (in the \"bindings:\" section of the .adef).")
    else Except.ok inst.binding
  else Except.ok inst.binding

/-! ## Application build-script generator (appBuildScript.cpp)

The generator writes ninja build statements.  A statement is embedded
structurally: outputs, rule name, explicit inputs, implicit dependencies
(after a single bar), order-only dependencies (after a double bar) and the
statement-scoped variable bindings. -/

structure BuildStatement where
  outputs : List String
  rule : String
  inputs : List String
  implicitDeps : List String := []
  orderOnlyDeps : List String := []
  vars : List (String × String) := []
deriving DecidableEq, Repr

/-- ninja::PermissionsToModeFlags: the chmod mode-flag string derived from
the three permission bits. -/
def PermissionsToModeFlags (p : Permissions) : String :=
  let executableFlag := if p.executable then "+x" else "-x"
  let flags := "u+rw" ++ executableFlag ++ ",g+r" ++ executableFlag ++ ",o" ++ executableFlag
  let flags := flags ++ (if p.readable then "+r" else "-r")
  flags ++ (if p.writeable then "+w" else "-w")

/-- The BundleFile statement written for one file object. -/
def bundleStmtFor (fo : FileSystemObject) : BuildStatement :=
  { outputs := [fo.destPath], rule := "BundleFile", inputs := [fo.srcPath],
    vars := [("modeFlags", PermissionsToModeFlags fo.permissions)] }

/-- Modelled from the spec: the ordering of model::FileSystemObjectSet_t is
not among the given sources; per the generator note the set tracks the
bundled destination paths, so lookup compares destination paths. -/
def findBundled (bundledFiles : List FileSystemObject) (fo : FileSystemObject) :
    Option FileSystemObject :=
  bundledFiles.find? (fun b => b.destPath == fo.destPath)

/-- Generator state while bundling one app: the set of already-bundled file
objects and the script written so far. -/
def BundleState := List FileSystemObject × List BuildStatement

/-- ninja::AppBuildScriptGenerator_t::GenerateFileBundleBuildStatement (the
two-argument form): a destination not seen before gets a BundleFile
statement and joins the set; a second file object with the same destination
is a conflict error when the source paths differ, a conflict error when the
permissions differ, and is silently skipped when it matches the existing
object entirely. -/
def generateFileBundleBuildStatement (fo : FileSystemObject) (st : BundleState) :
    Except String BundleState :=
  match findBundled st.1 fo with
  | none => Except.ok (st.1 ++ [fo], st.2 ++ [bundleStmtFor fo])
  | some existing =>
    if fo.srcPath ≠ existing.srcPath then
      Except.error ("error: Cannot bundle file \x27" ++ fo.srcPath ++ "\x27 with destination \x27"
        ++ fo.destPath ++ "\x27 since it conflicts with existing bundled file \x27"
        ++ existing.srcPath ++ "\x27.")
    else if fo.permissions ≠ existing.permissions then
      Except.error ("error: Cannot bundle file \x27" ++ fo.srcPath
        ++ "\x27.  It is already bundled with different permissions.")
    else Except.ok st

/-- Modelled from the spec: the path::Path_t append operator and
path::Combine are not among the given sources; they join two path segments
with exactly one separator. -/
def pathAppend (a b : String) : String :=
  if strBack a = some '/' then
    if b.toList.head? = some '/' then a ++ String.mk (b.toList.drop 1) else a ++ b
  else
    if b.toList.head? = some '/' then a ++ b else a ++ "/" ++ b

/-- model::Exe_t as needed by the generator: name and build product path. -/
structure Executable where
  name : String
  path : String
deriving DecidableEq, Repr

/-- model::Component_t as needed by the generator: bundled files, whether it
has C/C++ or Java sources, and its built library path.  Bundled directories
are expanded against the build-host filesystem at generation time and are
not part of the model here. -/
structure Component where
  name : String
  bundledFiles : List FileSystemObject
  hasCOrCppCode : Bool
  hasJavaCode : Bool
  lib : String
deriving DecidableEq, Repr

/-- model::App_t as needed by the generator.  ConfigFilePath is carried as
a field (the member function is outside the given sources). -/
structure App where
  name : String
  version : String
  workingDir : String
  defFilePath : String
  configFilePath : String
  bundledFiles : List FileSystemObject
  bundledBinaries : List FileSystemObject
  components : List Component
  executables : List Executable
deriving DecidableEq, Repr

/-- Staging destination computed by the three-argument
GenerateFileBundleBuildStatement: builddir, app working directory, staging,
writeable or read-only by the permissions, then the object destination. -/
def stagingDestPath (app : App) (fo : FileSystemObject) : String :=
  pathAppend (pathAppend (pathAppend (pathAppend "$builddir" app.workingDir) "staging")
    (if fo.permissions.writeable then "writeable" else "read-only")) fo.destPath

/-- The three-argument GenerateFileBundleBuildStatement: redirect the file
object into the staging area, then bundle it. -/
def bundleFileIntoStaging (app : App) (fo : FileSystemObject) (st : BundleState) :
    Except String BundleState :=
  generateFileBundleBuildStatement ⟨fo.srcPath, stagingDestPath app fo, fo.permissions⟩ st

/-- std::set insert on the bundled-file set: a no-op when an object with the
same destination is already present. -/
def fsoSetInsert (s : List FileSystemObject) (fo : FileSystemObject) :
    List FileSystemObject :=
  match s.find? (fun b => b.destPath == fo.destPath) with
  | some _ => s
  | none => s ++ [fo]

/-- Per-component tail of GenerateStagingBundleBuildStatements: a component
with C/C++ or Java code gets its library copied into the staging lib
directory (written directly to the script, without the conflict check) and
the library is inserted into the bundled set. -/
def componentLibStep (app : App) (comp : Component) (st : BundleState) : BundleState :=
  if comp.hasCOrCppCode || comp.hasJavaCode then
    let destPath := "$builddir/" ++ app.workingDir ++ "/staging/read-only/lib/"
      ++ getLastNode comp.lib
    let stmt : BuildStatement :=
      { outputs := [destPath], rule := "BundleFile", inputs := [comp.lib],
        vars := [("modeFlags", PermissionsToModeFlags ⟨true, false, true⟩)] }
    (fsoSetInsert st.1 ⟨comp.lib, destPath, ⟨true, false, comp.hasCOrCppCode⟩⟩,
     st.2 ++ [stmt])
  else st

/-- Per-executable tail of GenerateStagingBundleBuildStatements: every
executable is copied into the staging bin directory; the statement is
written but the executable is not inserted into the bundled set. -/
def exeBundleStep (app : App) (exe : Executable) (st : BundleState) : BundleState :=
  let destPath := "$builddir/" ++ app.workingDir ++ "/staging/read-only/bin/" ++ exe.name
  let exePath := "$builddir/" ++ exe.path
  (st.1,
   st.2 ++ [{ outputs := [destPath], rule := "BundleFile", inputs := [exePath],
              vars := [("modeFlags", PermissionsToModeFlags ⟨true, false, true⟩)] }])

/-- ninja::AppBuildScriptGenerator_t::GenerateStagingBundleBuildStatements:
app bundled files, app bundled binaries, per-component bundled files and
component libraries, then all executables. -/
def generateStagingBundleBuildStatements (app : App) (st : BundleState) :
    Except String BundleState := do
  let st ← app.bundledFiles.foldlM (fun s fo => bundleFileIntoStaging app fo s) st
  let st ← app.bundledBinaries.foldlM (fun s fo => bundleFileIntoStaging app fo s) st
  let st ← app.components.foldlM
    (fun s comp => do
      let s ← comp.bundledFiles.foldlM (fun s2 fo => bundleFileIntoStaging app fo s2) s
      pure (componentLibStep app comp s))
    st
  pure (app.executables.foldl (fun s exe => exeBundleStep app exe s) st)

/-- The staging-area info.properties path of an app. -/
def infoPropertiesPathOf (app : App) : String :=
  "$builddir/" ++ pathAppend app.workingDir "staging" ++ "/info.properties"

/-- The staged path of an executable, as listed among the info.properties
dependencies. -/
def stagedExePath (app : App) (exe : Executable) : String :=
  "$builddir/" ++ app.workingDir ++ "/staging/read-only/bin/" ++ exe.name

/-- The MakeAppInfoProperties statement: its implicit dependencies are all
bundled destinations, all staged executables, and the generated config
file. -/
def infoStmtOf (app : App) (allBundledFiles : List FileSystemObject) : BuildStatement :=
  { outputs := [infoPropertiesPathOf app], rule := "MakeAppInfoProperties", inputs := [],
    implicitDeps := allBundledFiles.map (fun fo => fo.destPath)
      ++ app.executables.map (fun exe => stagedExePath app exe)
      ++ ["$builddir/" ++ app.configFilePath],
    vars := [("name", app.name), ("version", app.version),
             ("workingDir", "$builddir/" ++ app.workingDir)] }

/-- The PackApp statement for the final update-pack artifact: its only
input is the info.properties file. -/
def packStmtOf (app : App) (outputDir : String) : BuildStatement :=
  { outputs := [pathAppend outputDir app.name ++ ".$target.update"], rule := "PackApp",
    inputs := [infoPropertiesPathOf app],
    vars := [("name", app.name), ("adefPath", app.defFilePath), ("version", app.version),
             ("workingDir", "$builddir/" ++ app.workingDir)] }

/-- The optional binary-redistribution statements: one CopyFile per
referenced api file and the BinPackApp statement depending on
info.properties plus (order-only) the copied api files. -/
def binPackStmtsOf (binPack : Bool) (apiFilePaths : List String) (app : App)
    (outputDir : String) : List BuildStatement :=
  if binPack then
    (apiFilePaths.map (fun p =>
      { outputs := ["$builddir/" ++ app.name ++ "/interfaces/" ++ getLastNode p],
        rule := "CopyFile", inputs := [p] }))
    ++ [{ outputs := [pathAppend outputDir app.name ++ ".$target.app"], rule := "BinPackApp",
          inputs := [infoPropertiesPathOf app],
          orderOnlyDeps := apiFilePaths.map
            (fun p => "$builddir/" ++ app.name ++ "/interfaces/" ++ getLastNode p),
          vars := [("adefPath", app.defFilePath),
                   ("stagingDir", "$builddir/" ++ app.workingDir ++ "/staging"),
                   ("workingDir", "$builddir/" ++ app.name)] }]
  else []

/-- ninja::AppBuildScriptGenerator_t::GenerateAppBundleBuildStatement:
staging bundle statements, the info.properties statement, the update-pack
statement, and optionally the binary-redistribution statements.  Returns
the script written by this call and the accumulated bundled-file set. -/
def generateAppBundleBuildStatement (binPack : Bool) (apiFilePaths : List String)
    (app : App) (outputDir : String) :
    Except String (List BuildStatement × List FileSystemObject) := do
  let st ← generateStagingBundleBuildStatements app ([], [])
  pure (st.2 ++ [infoStmtOf app st.1, packStmtOf app outputDir]
    ++ binPackStmtsOf binPack apiFilePaths app outputDir, st.1)

/-- Script component of a generator result (empty when the run threw). -/
def scriptOf (r : Except String (List BuildStatement × List FileSystemObject)) :
    List BuildStatement :=
  match r with
  | Except.ok st => st.1
  | Except.error _ => []

/-- Bundled-set component of a generator result (empty when the run threw). -/
def bundledOf (r : Except String (List BuildStatement × List FileSystemObject)) :
    List FileSystemObject :=
  match r with
  | Except.ok st => st.2
  | Except.error _ => []

/-! ## Modelling-before-generation pipeline -/

/-- Exception-propagating map, as a loop over section items: the first
failing item aborts the run. -/
def mapExcept {α β : Type} (f : α → Except String β) : List α → Except String (List β)
  | [] => Except.ok []
  | x :: xs =>
    match f x with
    | Except.error e => Except.error e
    | Except.ok y =>
      match mapExcept f xs with
      | Except.error e => Except.error e
      | Except.ok ys => Except.ok (y :: ys)

/-- Modelling of a requires file or dir section: every item is turned into
a FileSystemObject with GetRequiredFileOrDir. -/
def modelRequiredFilesSection (subst unquote : String → String)
    (items : List (String × String)) : Except String (List FileSystemObject) :=
  mapExcept (fun item => getRequiredFileOrDir subst unquote item.1 item.2) items

/-- The pipeline order of the tool (spec section 2): the modeller runs to
completion before the build-script generator writes anything, and a
modelling exception aborts the run before any build statement is
emitted. -/
def mkAppPipeline (subst unquote : String → String)
    (requiredItems : List (String × String)) (binPack : Bool)
    (apiFilePaths : List String) (app : App) (outputDir : String) :
    Except String (List BuildStatement) := do
  let _ ← modelRequiredFilesSection subst unquote requiredItems
  let r ← generateAppBundleBuildStatement binPack apiFilePaths app outputDir
  pure r.1

/-! ## Substring search used to state what an error message names -/

/-- Whether the pattern is an initial segment of the list. -/
def leadMatch : List Char → List Char → Bool
  | [], _ => true
  | _ :: _, [] => false
  | p :: ps, c :: cs => p == c && leadMatch ps cs

/-- Whether the pattern occurs contiguously anywhere in the list. -/
def hasSubseg (pat : List Char) : List Char → Bool
  | [] => pat.isEmpty
  | c :: rest => leadMatch pat (c :: rest) || hasSubseg pat rest

/-! ## General lemmas -/

theorem mapExcept_ok_mem {α β : Type} (f : α → Except String β) (xs : List α)
    (ys : List β) (h : mapExcept f xs = Except.ok ys) :
    ∀ x ∈ xs, exceptIsOk (f x) = true := by
  induction xs generalizing ys with
  | nil => intro x hx; cases hx
  | cons a t ih =>
    intro x hx
    unfold mapExcept at h
    cases hfa : f a with
    | error e => rw [hfa] at h; cases h
    | ok y =>
      rw [hfa] at h
      cases hft : mapExcept f t with
      | error e => rw [hft] at h; cases h
      | ok ys2 =>
        cases hx with
        | head => rw [hfa]; rfl
        | tail _ hmem => exact ih ys2 hft x hmem

theorem find?_append_singleton {α : Type} (p : α → Bool) (l : List α) (a : α)
    (h : l.find? p = none) (ha : p a = true) : (l ++ [a]).find? p = some a := by
  induction l with
  | nil => simp [List.find?, ha]
  | cons b t ih =>
    rw [List.find?_eq_none] at h
    have hb : p b = false := by
      have := h b (by simp)
      simp [this]
    have ht : t.find? p = none := by
      rw [List.find?_eq_none]
      intro x hx
      exact h x (by simp [hx])
    simp only [List.cons_append, List.find?_cons, hb]
    exact ih ht

theorem toUnsigned64_ofNat (v : Nat) (hv : v < 2 ^ 64) : toUnsigned64 (v : Int) = v := by
  unfold toUnsigned64
  omega

theorem toSigned64_small (n : Nat) (hn : n < 2 ^ 63) : toSigned64 n = (n : Int) := by
  unfold toSigned64
  rw [if_pos hn]

/-! ## Claim theorems -/

/-- C10: at most one watchdogAction and one watchdogTimeout section are
accepted per app: the first section of each kind stores its value, and a
second one throws (so the previously stored value, carried by the state
that is only replaced on success, is unchanged). -/
theorem C10_watchdog_sections_at_most_once (v text text2 text3 : String) (t : Int)
    (tk : TokenKind) :
    setWatchdogAction none text = Except.ok (some text)
    ∧ setWatchdogAction (some v) text2 =
        Except.error "Only one watchdogAction section allowed."
    ∧ setWatchdogTimeout none TokenKind.name text3 = Except.ok (some (-1))
    ∧ setWatchdogTimeout (some t) tk text3 =
        Except.error "Only one watchdogTimeout section allowed." := by
  refine ⟨rfl, rfl, rfl, ?_⟩
  simp [setWatchdogTimeout]

/-- C9: a bundled file or dir item and a required device item with no
leading FILE_PERMISSIONS token produce a FileSystemObject whose
permissions are readable only (read-only default). -/
theorem C9_default_permissions_read_only (subst unquote : String → String) (t1 t2 : Token)
    (rest : List Token) (h : t1.kind ≠ TokenKind.filePermissions) :
    getBundledItem subst unquote (t1 :: t2 :: rest) =
      some (mkFso subst unquote t1.text t2.text ⟨true, false, false⟩)
    ∧ getRequiredDevice subst unquote (t1 :: t2 :: rest) =
      Except.ok (some (mkFso subst unquote t1.text t2.text ⟨true, false, false⟩))
    ∧ (mkFso subst unquote t1.text t2.text ⟨true, false, false⟩).permissions =
      ⟨true, false, false⟩ := by
  have h1 : getPermissionItem subst unquote (t1 :: t2 :: rest) =
      some (mkFso subst unquote t1.text t2.text ⟨true, false, false⟩) := by
    simp [getPermissionItem, h]
  refine ⟨h1, ?_, rfl⟩
  simp [getRequiredDevice, h1, mkFso]

theorem C9_default_permissions_read_only_witness :
    getBundledItem id id [⟨TokenKind.filePath, "/a/b"⟩, ⟨TokenKind.filePath, "/c"⟩] =
      some (mkFso id id "/a/b" "/c" ⟨true, false, false⟩)
    ∧ getRequiredDevice id id [⟨TokenKind.filePath, "/a/b"⟩, ⟨TokenKind.filePath, "/c"⟩] =
      Except.ok (some (mkFso id id "/a/b" "/c" ⟨true, false, false⟩))
    ∧ (mkFso id id "/a/b" "/c" ⟨true, false, false⟩).permissions = ⟨true, false, false⟩ :=
  C9_default_permissions_read_only id id ⟨TokenKind.filePath, "/a/b"⟩
    ⟨TokenKind.filePath, "/c"⟩ [] (by decide)

/-- C2, counterexample: a required, non-optional client interface foo with
no binding and no extern mark makes the system-level resolver raise an
error naming only appName.interfaceName; the full dotted path
app.exe.comp.foo does not occur in the message, contrary to the claim. -/
theorem C2_counterexample :
    ensureClientIfBound [] "app" "exe" "comp" ⟨"foo", "foo", false, none, false⟩ =
      Except.error "Client interface \x27app.foo\x27 is not bound to anything."
    ∧ hasSubseg "app.exe.comp.foo".toList
        "Client interface \x27app.foo\x27 is not bound to anything.".toList = false := by
  exact ⟨rfl, by decide⟩

/-- C2, amended: an unbound, non-optional client interface that is not
le_cfg or le_wdog and carries no extern mark makes the system-level
resolver raise an error naming the interface as appName.interfaceName (the
full dotted path appears only in the message for extern-marked
interfaces). -/
theorem C2_unbound_error_names_app_dot_if (apps : List (String × List String))
    (appName exeName compName : String) (inst : ClientIfInstance)
    (hb : inst.binding = none) (ho : inst.optional = false)
    (hcfg : inst.internalName ≠ "le_cfg") (hwdog : inst.internalName ≠ "le_wdog")
    (hext : inst.externMark = false) :
    ensureClientIfBound apps appName exeName compName inst =
      Except.error ("Client interface \x27" ++ appName ++ "." ++ inst.name
        ++ "\x27 is not bound to anything.") := by
  rw [ensureClientIfBound, hb]
  simp [ho, hcfg, hwdog, hext]

theorem C2_unbound_error_names_app_dot_if_witness :
    ensureClientIfBound [] "app" "exe" "comp" ⟨"foo", "foo", false, none, false⟩ =
      Except.error ("Client interface \x27" ++ "app" ++ "." ++ "foo"
        ++ "\x27 is not bound to anything.") :=
  C2_unbound_error_names_app_dot_if [] "app" "exe" "comp"
    ⟨"foo", "foo", false, none, false⟩ rfl rfl (by decide) (by decide) rfl

/-- C3, counterexample: an unbound, non-optional le_cfg interface carrying
an extern mark is left untouched by the app-level check
(EnsureClientInterfacesSatisfied): no binding is created, contrary to the
claim that both checks create the root binding. -/
theorem C3_counterexample :
    ensureClientIfSatisfied "app" "exe" "comp" ⟨"cfg", "le_cfg", false, none, true⟩ =
      Except.ok none := by
  rfl

/-- C3, amended: an unbound, non-optional le_cfg or le_wdog interface is
auto-bound by the system-level resolver to the root-served service of the
same name (server agent root, EXTERNAL_USER) with no error; the app-level
check does the same provided the interface carries no extern mark, and
leaves an extern-marked one unbound. -/
theorem C3_auto_bind_root_service (apps : List (String × List String))
    (appName exeName compName : String) (inst : ClientIfInstance)
    (hb : inst.binding = none) (ho : inst.optional = false)
    (hname : inst.internalName = "le_cfg" ∨ inst.internalName = "le_wdog") :
    ensureClientIfBound apps appName exeName compName inst =
      Except.ok (some (bindToRootService appName inst inst.internalName))
    ∧ ensureClientIfSatisfied appName exeName compName inst =
      (if inst.externMark then Except.ok none
       else Except.ok (some (bindToRootService appName inst inst.internalName)))
    ∧ (bindToRootService appName inst inst.internalName).serverAgentName = "root"
    ∧ (bindToRootService appName inst inst.internalName).serverIfName = inst.internalName
    ∧ (bindToRootService appName inst inst.internalName).serverType =
      BindingEndType.externalUser := by
  refine ⟨?_, ?_, rfl, rfl, rfl⟩
  · rw [ensureClientIfBound, hb]
    rcases hname with hn | hn <;> simp [ho, hn]
  · by_cases hext : inst.externMark
    · simp [ensureClientIfSatisfied, hext, hb]
    · simp only [Bool.not_eq_true] at hext
      rw [ensureClientIfSatisfied]
      rcases hname with hn | hn <;> simp [hb, hext, ho, hn]

theorem C3_auto_bind_root_service_witness :
    ensureClientIfBound [] "a" "e" "c" ⟨"wd", "le_wdog", false, none, false⟩ =
      Except.ok (some (bindToRootService "a" ⟨"wd", "le_wdog", false, none, false⟩ "le_wdog"))
    ∧ ensureClientIfSatisfied "a" "e" "c" ⟨"wd", "le_wdog", false, none, false⟩ =
      (if (false : Bool) then Except.ok none
       else Except.ok
         (some (bindToRootService "a" ⟨"wd", "le_wdog", false, none, false⟩ "le_wdog")))
    ∧ (bindToRootService "a" ⟨"wd", "le_wdog", false, none, false⟩ "le_wdog").serverAgentName =
      "root"
    ∧ (bindToRootService "a" ⟨"wd", "le_wdog", false, none, false⟩ "le_wdog").serverIfName =
      "le_wdog"
    ∧ (bindToRootService "a" ⟨"wd", "le_wdog", false, none, false⟩ "le_wdog").serverType =
      BindingEndType.externalUser :=
  C3_auto_bind_root_service [] "a" "e" "c" ⟨"wd", "le_wdog", false, none, false⟩
    rfl rfl (Or.inr rfl)

/-- C6: the code contradicts the claim (and its own out-of-range contract)
at the input 18014398509481984K: strtoul succeeds (no ERANGE), and the
K-suffix multiplication by 1024 wraps modulo 2 ^ 64 to 0, which
GetNonNegativeInt silently returns instead of reporting the overflow. -/
theorem C6_K_suffix_overflow_wraps_silently :
    getNonNegativeInt "18014398509481984K" = Except.ok 0
    ∧ (18014398509481984 : Nat) * 1024 = 2 ^ 64 := by
  exact ⟨rfl, by norm_num⟩

/-- C5: a NAME token in a watchdogTimeout section is accepted only when its
text is exactly never, otherwise an INTEGER token is required (any other
upcoming token errors); and when the value is modelled by
SetWatchdogTimeout, an integer with a trailing K suffix is multiplied by
1024 (stated for values whose product stays in the signed 64-bit range). -/
theorem C5_watchdog_timeout_section (bad text : String) (tk : TokenKind) (v : Nat)
    (r : List Char) (hbad : bad ≠ "never")
    (htk1 : tk ≠ TokenKind.name) (htk2 : tk ≠ TokenKind.integer)
    (hparse : strtol0 text.toList = ⟨(v : Int), false, 'K' :: r⟩)
    (hv : 1024 * v < 2 ^ 63) :
    parseWatchdogTimeout TokenKind.name "never" = Except.ok "never"
    ∧ parseWatchdogTimeout TokenKind.name bad =
        Except.error ("Invalid watchdog timeout value \x27" ++ bad
          ++ "\x27. Must be an integer or the word \x27never\x27.")
    ∧ parseWatchdogTimeout TokenKind.integer text = Except.ok text
    ∧ parseWatchdogTimeout tk text =
        Except.error "Invalid watchdog timeout. Must be an integer or the word \x27never\x27."
    ∧ setWatchdogTimeout none TokenKind.name "never" = Except.ok (some (-1))
    ∧ setWatchdogTimeout none TokenKind.integer text =
        Except.ok (some ((1024 * v : Nat) : Int)) := by
  have hv64 : v < 2 ^ 64 := by omega
  have hgi : getInt text = Except.ok ((1024 * v : Nat) : Int) := by
    simp only [getInt, hparse, List.head?]
    rw [toUnsigned64_ofNat v hv64]
    norm_num
    rw [Nat.mod_eq_of_lt (by omega)]
    rw [toSigned64_small _ (by omega)]
    push_cast
    ring
  refine ⟨rfl, ?_, rfl, ?_, rfl, ?_⟩
  · simp [parseWatchdogTimeout, hbad]
  · cases tk <;> simp_all [parseWatchdogTimeout]
  · simp [setWatchdogTimeout, hgi]

theorem C5_watchdog_timeout_section_witness :
    parseWatchdogTimeout TokenKind.name "never" = Except.ok "never"
    ∧ parseWatchdogTimeout TokenKind.name "ever" =
        Except.error ("Invalid watchdog timeout value \x27" ++ "ever"
          ++ "\x27. Must be an integer or the word \x27never\x27.")
    ∧ parseWatchdogTimeout TokenKind.integer "30K" = Except.ok "30K"
    ∧ parseWatchdogTimeout TokenKind.filePath "30K" =
        Except.error "Invalid watchdog timeout. Must be an integer or the word \x27never\x27."
    ∧ setWatchdogTimeout none TokenKind.name "never" = Except.ok (some (-1))
    ∧ setWatchdogTimeout none TokenKind.integer "30K" =
        Except.ok (some ((1024 * 30 : Nat) : Int)) :=
  C5_watchdog_timeout_section "ever" "30K" TokenKind.filePath 30 []
    (by decide) (by decide) (by decide) (by decide) (by norm_num)

/-- C1: two bundled file objects presented to the generator with the same
destination: the first gets exactly one BundleFile statement; the second is
a conflict error naming both source paths when the sources differ, a
conflict error when only the permissions differ, and adds nothing (leaving
exactly the one statement for that destination) when both match. -/
theorem C1_bundle_conflict_pairs (fo1 fo2 : FileSystemObject) (bf : List FileSystemObject)
    (sc : List BuildStatement) (hdest : fo1.destPath = fo2.destPath)
    (hnew : findBundled bf fo1 = none) :
    generateFileBundleBuildStatement fo1 (bf, sc) =
      Except.ok (bf ++ [fo1], sc ++ [bundleStmtFor fo1])
    ∧ generateFileBundleBuildStatement fo2 (bf ++ [fo1], sc ++ [bundleStmtFor fo1]) =
      (if fo2.srcPath ≠ fo1.srcPath then
        Except.error ("error: Cannot bundle file \x27" ++ fo2.srcPath
          ++ "\x27 with destination \x27" ++ fo2.destPath
          ++ "\x27 since it conflicts with existing bundled file \x27"
          ++ fo1.srcPath ++ "\x27.")
      else if fo2.permissions ≠ fo1.permissions then
        Except.error ("error: Cannot bundle file \x27" ++ fo2.srcPath
          ++ "\x27.  It is already bundled with different permissions.")
      else Except.ok (bf ++ [fo1], sc ++ [bundleStmtFor fo1])) := by
  have hfind : findBundled (bf ++ [fo1]) fo2 = some fo1 := by
    unfold findBundled at hnew ⊢
    rw [hdest] at hnew
    exact find?_append_singleton _ bf fo1 hnew (by simp [hdest])
  constructor
  · simp [generateFileBundleBuildStatement, hnew]
  · simp [generateFileBundleBuildStatement, hfind]

theorem C1_bundle_conflict_pairs_witness :
    generateFileBundleBuildStatement ⟨"/a/x.txt", "/staging/x.txt", ⟨true, false, false⟩⟩
      ([], []) =
      Except.ok ([⟨"/a/x.txt", "/staging/x.txt", ⟨true, false, false⟩⟩],
        [bundleStmtFor ⟨"/a/x.txt", "/staging/x.txt", ⟨true, false, false⟩⟩])
    ∧ generateFileBundleBuildStatement ⟨"/b/x.txt", "/staging/x.txt", ⟨true, false, false⟩⟩
      ([⟨"/a/x.txt", "/staging/x.txt", ⟨true, false, false⟩⟩],
        [bundleStmtFor ⟨"/a/x.txt", "/staging/x.txt", ⟨true, false, false⟩⟩]) =
      (if "/b/x.txt" ≠ "/a/x.txt" then
        Except.error ("error: Cannot bundle file \x27" ++ "/b/x.txt"
          ++ "\x27 with destination \x27" ++ "/staging/x.txt"
          ++ "\x27 since it conflicts with existing bundled file \x27"
          ++ "/a/x.txt" ++ "\x27.")
      else if (⟨true, false, false⟩ : Permissions) ≠ ⟨true, false, false⟩ then
        Except.error ("error: Cannot bundle file \x27" ++ "/b/x.txt"
          ++ "\x27.  It is already bundled with different permissions.")
      else Except.ok ([⟨"/a/x.txt", "/staging/x.txt", ⟨true, false, false⟩⟩],
        [bundleStmtFor ⟨"/a/x.txt", "/staging/x.txt", ⟨true, false, false⟩⟩])) :=
  C1_bundle_conflict_pairs ⟨"/a/x.txt", "/staging/x.txt", ⟨true, false, false⟩⟩
    ⟨"/b/x.txt", "/staging/x.txt", ⟨true, false, false⟩⟩ [] [] rfl rfl

/-- C7: a required file or dir item whose source path ends in a separator
after substitution and unquoting makes GetRequiredFileOrDir throw, and the
pipeline (model first, then generate) therefore aborts with no build
statement emitted. -/
theorem C7_required_src_trailing_separator (subst unquote : String → String)
    (items : List (String × String)) (src dest : String) (binPack : Bool)
    (api : List String) (app : App) (outDir : String)
    (hmem : (src, dest) ∈ items)
    (hslash : strBack (unquote (subst src)) = some '/') :
    getRequiredFileOrDir subst unquote src dest =
      Except.error "Required item\x27s path must not end in a \x27/\x27."
    ∧ exceptIsOk (mkAppPipeline subst unquote items binPack api app outDir) = false := by
  have herr : getRequiredFileOrDir subst unquote src dest =
      Except.error "Required item\x27s path must not end in a \x27/\x27." := by
    simp [getRequiredFileOrDir, hslash]
  refine ⟨herr, ?_⟩
  cases hm : modelRequiredFilesSection subst unquote items with
  | error e =>
    unfold mkAppPipeline
    rw [hm]
    rfl
  | ok ys =>
    have := mapExcept_ok_mem _ items ys hm (src, dest) hmem
    rw [herr] at this
    cases this

theorem C7_required_src_trailing_separator_witness :
    getRequiredFileOrDir id id "/a/b/" "/c" =
      Except.error "Required item\x27s path must not end in a \x27/\x27."
    ∧ exceptIsOk (mkAppPipeline id id [("/a/b/", "/c")] false []
        ⟨"a", "1", "w", "d", "cfg", [], [], [], []⟩ "/out") = false :=
  C7_required_src_trailing_separator id id [("/a/b/", "/c")] "/a/b/" "/c" false []
    ⟨"a", "1", "w", "d", "cfg", [], [], [], []⟩ "/out" (by simp) (by decide)

/-- A single-bundled-file, single-executable app used to exercise the
update-pack statement. -/
def c8App : App :=
  { name := "myApp", version := "1.0", workingDir := "app/myApp",
    defFilePath := "myApp.adef", configFilePath := "app/myApp/root.cfg",
    bundledFiles := [⟨"/src/a.txt", "/a.txt", ⟨true, false, false⟩⟩],
    bundledBinaries := [], components := [],
    executables := [⟨"fooExe", "app/myApp/obj/fooExe"⟩] }

/-- C8, counterexample: for an app with one bundled file and one
executable, both are staged (the file reaches the bundled set), yet the
generated update-pack (PackApp) statement lists only the info.properties
file: neither the staged file nor the staged executable occurs among its
inputs, implicit or order-only dependencies, contrary to the claim. -/
theorem C8_counterexample :
    packStmtOf c8App "/out" ∈
      scriptOf (generateAppBundleBuildStatement false [] c8App "/out")
    ∧ (bundledOf (generateAppBundleBuildStatement false [] c8App "/out")).map
        (fun fo => fo.destPath) = ["$builddir/app/myApp/staging/read-only/a.txt"]
    ∧ (packStmtOf c8App "/out").inputs =
        ["$builddir/app/myApp/staging/info.properties"]
    ∧ ((packStmtOf c8App "/out").inputs ++ (packStmtOf c8App "/out").implicitDeps
        ++ (packStmtOf c8App "/out").orderOnlyDeps).contains
        "$builddir/app/myApp/staging/read-only/a.txt" = false
    ∧ ((packStmtOf c8App "/out").inputs ++ (packStmtOf c8App "/out").implicitDeps
        ++ (packStmtOf c8App "/out").orderOnlyDeps).contains
        "$builddir/app/myApp/staging/read-only/bin/fooExe" = false := by
  refine ⟨?_, rfl, rfl, by decide, by decide⟩
  decide

/-- C8, amended: the update-pack statement depends directly only on the
info.properties file; the info.properties statement lists every bundled
file destination, every staged executable and the generated config file as
its dependencies, so the packaging step transitively cannot run before
every staged input exists. -/
theorem C8_update_pack_dependencies (binPack : Bool) (api : List String) (app : App)
    (outDir : String)
    (hok : exceptIsOk (generateAppBundleBuildStatement binPack api app outDir) = true) :
    infoStmtOf app (bundledOf (generateAppBundleBuildStatement binPack api app outDir))
      ∈ scriptOf (generateAppBundleBuildStatement binPack api app outDir)
    ∧ packStmtOf app outDir ∈ scriptOf (generateAppBundleBuildStatement binPack api app outDir)
    ∧ (packStmtOf app outDir).inputs = [infoPropertiesPathOf app]
    ∧ (bundledOf (generateAppBundleBuildStatement binPack api app outDir)).all
        (fun fo => (infoStmtOf app (bundledOf (generateAppBundleBuildStatement binPack api
          app outDir))).implicitDeps.contains fo.destPath) = true
    ∧ app.executables.all
        (fun exe => (infoStmtOf app (bundledOf (generateAppBundleBuildStatement binPack api
          app outDir))).implicitDeps.contains (stagedExePath app exe)) = true
    ∧ (infoStmtOf app (bundledOf (generateAppBundleBuildStatement binPack api
        app outDir))).implicitDeps.contains ("$builddir/" ++ app.configFilePath) = true := by
  cases hst : generateStagingBundleBuildStatements app ([], []) with
  | error e =>
    exfalso
    have hko : exceptIsOk (generateAppBundleBuildStatement binPack api app outDir) = false := by
      unfold generateAppBundleBuildStatement
      rw [hst]
      rfl
    rw [hko] at hok
    cases hok
  | ok st =>
    have hgen : generateAppBundleBuildStatement binPack api app outDir =
        Except.ok (st.2 ++ [infoStmtOf app st.1, packStmtOf app outDir]
          ++ binPackStmtsOf binPack api app outDir, st.1) := by
      unfold generateAppBundleBuildStatement
      rw [hst]
      rfl
    have hb : bundledOf (generateAppBundleBuildStatement binPack api app outDir) = st.1 := by
      rw [hgen]
      rfl
    have hs : scriptOf (generateAppBundleBuildStatement binPack api app outDir) =
        st.2 ++ [infoStmtOf app st.1, packStmtOf app outDir]
          ++ binPackStmtsOf binPack api app outDir := by
      rw [hgen]
      rfl
    rw [hb, hs]
    refine ⟨by simp, by simp, rfl, ?_, ?_, ?_⟩
    · rw [List.all_eq_true]
      intro fo hfo
      have : fo.destPath ∈ (infoStmtOf app st.1).implicitDeps := by
        simp only [infoStmtOf]
        exact List.mem_append_left _ (List.mem_append_left _ (List.mem_map_of_mem _ hfo))
      simpa [List.elem_iff] using this
    · rw [List.all_eq_true]
      intro exe hexe
      have : stagedExePath app exe ∈ (infoStmtOf app st.1).implicitDeps := by
        simp only [infoStmtOf]
        exact List.mem_append_left _ (List.mem_append_right _ (List.mem_map_of_mem _ hexe))
      simpa [List.elem_iff] using this
    · have : ("$builddir/" ++ app.configFilePath) ∈ (infoStmtOf app st.1).implicitDeps := by
        simp [infoStmtOf]
      simpa [List.elem_iff] using this

theorem C8_update_pack_dependencies_witness :
    infoStmtOf c8App (bundledOf (generateAppBundleBuildStatement false [] c8App "/out"))
      ∈ scriptOf (generateAppBundleBuildStatement false [] c8App "/out")
    ∧ packStmtOf c8App "/out" ∈ scriptOf (generateAppBundleBuildStatement false [] c8App "/out")
    ∧ (packStmtOf c8App "/out").inputs = [infoPropertiesPathOf c8App]
    ∧ (bundledOf (generateAppBundleBuildStatement false [] c8App "/out")).all
        (fun fo => (infoStmtOf c8App (bundledOf (generateAppBundleBuildStatement false []
          c8App "/out"))).implicitDeps.contains fo.destPath) = true
    ∧ c8App.executables.all
        (fun exe => (infoStmtOf c8App (bundledOf (generateAppBundleBuildStatement false []
          c8App "/out"))).implicitDeps.contains (stagedExePath c8App exe)) = true
    ∧ (infoStmtOf c8App (bundledOf (generateAppBundleBuildStatement false []
        c8App "/out"))).implicitDeps.contains ("$builddir/" ++ c8App.configFilePath) = true :=
  C8_update_pack_dependencies false [] c8App "/out" rfl

theorem takeWhile_all_eq (l : List Char) (h : l.all Char.isDigit = true) :
    l.takeWhile Char.isDigit = l := by
  induction l with
  | nil => rfl
  | cons a t ih =>
    simp only [List.all_cons, Bool.and_eq_true] at h
    simp [List.takeWhile_cons, h.1, ih h.2]

theorem prioGuard_eq_specRt (cs : List Char) (h : '\x00' ∉ cs) :
    prioGuard cs = specRt cs := by
  match cs with
  | [] => rfl
  | [a] =>
    have e1 : cAt [a] 1 = '\x00' := rfl
    simp [prioGuard, specRt, e1]
  | [a, b] =>
    have e2 : cAt [a, b] 2 = '\x00' := rfl
    simp [prioGuard, specRt, e2]
  | [a, b, c] =>
    have e0 : cAt [a, b, c] 0 = a := rfl
    have e1 : cAt [a, b, c] 1 = b := rfl
    have e2 : cAt [a, b, c] 2 = c := rfl
    have e3 : cAt [a, b, c] 3 = '\x00' := rfl
    simp [prioGuard, specRt, e0, e1, e2, e3]
  | [a, b, c, d] =>
    have hd : d ≠ '\x00' := by
      intro hc
      exact h (by simp [hc])
    have e0 : cAt [a, b, c, d] 0 = a := rfl
    have e1 : cAt [a, b, c, d] 1 = b := rfl
    have e2 : cAt [a, b, c, d] 2 = c := rfl
    have e3 : cAt [a, b, c, d] 3 = d := rfl
    have e4 : cAt [a, b, c, d] 4 = '\x00' := rfl
    have hd4 : (d == '\x00') = false := beq_eq_false_iff_ne.mpr hd
    simp [prioGuard, specRt, e0, e1, e2, e3, e4, hd4, Bool.and_assoc]
  | a :: b :: c :: d :: e :: rest =>
    have hd : d ≠ '\x00' := by
      intro hc
      exact h (by simp [hc])
    have he : e ≠ '\x00' := by
      intro hc
      exact h (by simp [hc])
    have e3 : cAt (a :: b :: c :: d :: e :: rest) 3 = d := rfl
    have e4 : cAt (a :: b :: c :: d :: e :: rest) 4 = e := rfl
    have hd4 : (d == '\x00') = false := beq_eq_false_iff_ne.mpr hd
    have he4 : (e == '\x00') = false := beq_eq_false_iff_ne.mpr he
    simp [prioGuard, specRt, e3, e4, hd4, he4]

theorem specRt_digits (cs : List Char) (h : specRt cs = true) :
    (cs.drop 2).all Char.isDigit = true := by
  match cs with
  | [] => cases h
  | [a] => cases h
  | [a, b] => cases h
  | [a, b, c] =>
    simp only [specRt, Bool.and_eq_true] at h
    simp [h.2]
  | [a, b, c, d] =>
    simp only [specRt, Bool.and_eq_true] at h
    simp [h.1.2, h.2]
  | a :: b :: c :: d :: e :: rest => cases h

/-- C4: a priority-section content token (containing no null character, as
any token read from the file does) is accepted exactly when the claim says:
it is one of idle, low, medium, high, or it is rt followed by one or two
decimal digits and nothing else, denoting a number N with 1 ≤ N ≤ 32; every
other token (including rt0, rt33 and rt1a) is rejected with an error. -/
theorem C4_priority_token_acceptance (content : String)
    (h : '\x00' ∉ content.toList) :
    exceptIsOk (parsePriority content) = specAcceptPriority content := by
  by_cases hname : content = "idle" ∨ content = "low" ∨ content = "medium" ∨ content = "high"
  · rcases hname with h1 | h1 | h1 | h1 <;> subst h1 <;> rfl
  · have hn1 : content ≠ "idle" := fun hc => hname (Or.inl hc)
    have hn2 : content ≠ "low" := fun hc => hname (Or.inr (Or.inl hc))
    have hn3 : content ≠ "medium" := fun hc => hname (Or.inr (Or.inr (Or.inl hc)))
    have hn4 : content ≠ "high" := fun hc => hname (Or.inr (Or.inr (Or.inr hc)))
    unfold parsePriority specAcceptPriority
    rw [if_neg hname]
    rw [beq_eq_false_iff_ne.mpr hn1, beq_eq_false_iff_ne.mpr hn2,
        beq_eq_false_iff_ne.mpr hn3, beq_eq_false_iff_ne.mpr hn4]
    simp only [Bool.false_or]
    rw [prioGuard_eq_specRt content.toList h]
    by_cases hg : specRt content.toList = true
    · rw [if_pos hg]
      have hdigits : streamDigits (content.toList.drop 2) = content.toList.drop 2 := by
        unfold streamDigits
        exact takeWhile_all_eq _ (specRt_digits _ hg)
      rw [hdigits]
      by_cases hv : digitsToNat (content.toList.drop 2) < 1
        ∨ 32 < digitsToNat (content.toList.drop 2)
      · have hrhs : (decide (1 ≤ digitsToNat (content.toList.drop 2)) = false)
            ∨ (decide (digitsToNat (content.toList.drop 2) ≤ 32) = false) := by
          rcases hv with hv | hv
          · exact Or.inl (decide_eq_false (by omega))
          · exact Or.inr (decide_eq_false (by omega))
        rw [if_pos hv]
        rcases hrhs with hr | hr
        · rw [hr]
          simp only [Bool.and_false, Bool.false_and]
          rfl
        · rw [hr]
          simp only [Bool.and_false]
          rfl
      · rw [if_neg hv]
        push_neg at hv
        simp only [exceptIsOk, hg, Bool.true_and]
        rw [decide_eq_true hv.1, decide_eq_true hv.2]
        rfl
    · have hg0 : specRt content.toList = false := by
        exact Bool.not_eq_true _ ▸ (by simpa using hg)
      rw [hg0, if_neg (by simp)]
      simp [exceptIsOk]

theorem C4_priority_token_acceptance_witness :
    exceptIsOk (parsePriority "rt32") = specAcceptPriority "rt32" :=
  C4_priority_token_acceptance "rt32" (by decide)

end MkTools
